import Mathlib

/-!
Verification of the Rush deploy manager (DeployManager): dependency-folder
collection, path remapping into the deploy target, folder copying filters,
symlink materialization, and the deployScenario orchestration.

Paths are modelled as lists of path components (FsPath). The filesystem and
the external module resolver are modelled as explicit parameters (existence
predicates, resolution results), matching the interface boundary of the
source: every definition below is a shallow embedding of the corresponding
function in DeployManager.ts.
-/

namespace DeployManager

/-- A filesystem path, as its list of components. -/
abbrev FsPath := List String

/-- Render a path for error messages, as the slash-separated components. -/
def renderPath (p : FsPath) : String :=
  String.intercalate "/" p

/-- Model of Path.isUnderOrEqual from node-core-library: the candidate path
is equal to the parent folder or located underneath it. -/
def isUnderOrEqual (childPath parentFolderPath : FsPath) : Bool :=
  parentFolderPath.isPrefixOf childPath

/-- Model of node path.relative restricted to the guarded case used by
_remapPathForDeployFolder: the general form walks up with double-dot
components past the longest common prefix. -/
def commonPrefixLength : FsPath → FsPath → Nat
  | a :: as, b :: bs => if a == b then 1 + commonPrefixLength as bs else 0
  | _, _ => 0

/-- Model of node path.relative: double-dot steps out of the part of the
start path beyond the common prefix, then down into the destination. -/
def nodeRelative (fromPath toPath : FsPath) : FsPath :=
  let c := commonPrefixLength fromPath toPath
  List.replicate (fromPath.length - c) ".." ++ toPath.drop c

/-- Embedding of DeployManager._remapPathForDeployFolder: fail when the
source path is not under the source root, otherwise join the target
subdeployment folder with the relative position under the source root. -/
def remapPathForDeployFolder (sourceRootFolder targetSubdeploymentFolder : FsPath)
    (absolutePathInSourceFolder : FsPath) : Except String FsPath :=
  if isUnderOrEqual absolutePathInSourceFolder sourceRootFolder then
    Except.ok (targetSubdeploymentFolder ++
      nodeRelative sourceRootFolder absolutePathInSourceFolder)
  else
    Except.error ("Source path is not under " ++ renderPath sourceRootFolder ++
      "\n" ++ renderPath absolutePathInSourceFolder)

/-- The dependency sections of a package.json manifest; only the keys of
each section are relevant to the resolver. -/
structure PackageJson where
  dependencies : List String := []
  devDependencies : List String := []
  peerDependencies : List String := []
  optionalDependencies : List String := []

/-- Model of JavaScript Set.add on a list kept duplicate-free in insertion
order. -/
def setAdd (s : List String) (x : String) : List String :=
  if s.contains x then s else s ++ [x]

/-- Add every name of a dependency section to the accumulated set. -/
def addAll (s : List String) (names : List String) : List String :=
  names.foldl setAdd s

/-- Embedding of the allDependencyNames set built by
_collectFoldersRecursive: regular dependencies, then devDependencies when
includeDevDependencies is set, then peerDependencies, then
optionalDependencies. -/
def allDependencyNames (includeDevDependencies : Bool) (packageJson : PackageJson) :
    List String :=
  let s := addAll [] packageJson.dependencies
  let s := if includeDevDependencies then addAll s packageJson.devDependencies else s
  let s := addAll s packageJson.peerDependencies
  addAll s packageJson.optionalDependencies

/-- Embedding of the optionalDependencyNames set built by
_collectFoldersRecursive: peerDependencies are added alongside
optionalDependencies, since peers are so frequently broken. -/
def optionalDependencyNames (packageJson : PackageJson) : List String :=
  addAll (addAll [] packageJson.peerDependencies) packageJson.optionalDependencies

/-- Outcome of handling one dependency name inside the resolution loop of
_collectFoldersRecursive. -/
inductive DependencyOutcome where
  | skipped
  | fatal (message : String)
  | recurse (dependencyPackageJsonPath : FsPath)
  deriving DecidableEq

/-- Embedding of the per-dependency branch of _collectFoldersRecursive
(after resolve.sync): a falsy resolution result is ignored for lenient
names and fatal otherwise; a resolved path without a locatable package.json
is fatal; otherwise the resolver recurses into the dependency manifest. -/
def handleResolvedDependency (optionalDependencyNames : List String)
    (dependencyPackageName : String) (packageJsonPath : FsPath)
    (resolvedDependency : Option FsPath)
    (tryGetPackageJsonFilePathFor : FsPath → Option FsPath) : DependencyOutcome :=
  match resolvedDependency with
  | none =>
    if optionalDependencyNames.contains dependencyPackageName then
      DependencyOutcome.skipped
    else
      DependencyOutcome.fatal ("Error resolving " ++ dependencyPackageName ++
        " from " ++ renderPath packageJsonPath)
  | some resolved =>
    match tryGetPackageJsonFilePathFor resolved with
    | none =>
      DependencyOutcome.fatal ("Error finding package.json for " ++ renderPath resolved)
    | some dependencyPackageJsonPath =>
      DependencyOutcome.recurse dependencyPackageJsonPath

/-- Abstract dependency graph seen by _collectFoldersRecursive once
resolution succeeds: each package.json path maps to the package.json paths
of its resolved dependencies (in iteration order of the required-name
set). -/
abbrev DependencyGraph := List (FsPath × List FsPath)

/-- The package folders owning the manifests of the graph. -/
def graphFolders (graph : DependencyGraph) : List FsPath :=
  graph.map (fun entry => entry.1.dropLast)

/-- Worklist form of _collectFoldersRecursive over a dependency graph: the
head manifest whose owning folder is already in foldersToCopy is dropped
without descending; otherwise its folder is recorded and its dependency
manifests are pushed in front of the remaining work, exactly as the
recursive source descends into each dependency before returning. A manifest
path absent from the graph contributes no dependency edges. The function is
total: Lean accepts the termination measure below for every graph,
including cyclic ones. -/
def collectMany (graph : DependencyGraph) : List FsPath → List FsPath → List FsPath
  | [], foldersToCopy => foldersToCopy
  | packageJsonPath :: rest, foldersToCopy =>
    if packageJsonPath.dropLast ∈ foldersToCopy then
      collectMany graph rest foldersToCopy
    else
      match hfind : graph.find? (fun entry => entry.1 == packageJsonPath) with
      | some entry =>
        collectMany graph (entry.2 ++ rest) (foldersToCopy ++ [packageJsonPath.dropLast])
      | none =>
        collectMany graph rest (foldersToCopy ++ [packageJsonPath.dropLast])
termination_by pending foldersToCopy =>
  (((graphFolders graph).toFinset \ foldersToCopy.toFinset).card, pending.length)
decreasing_by
  · exact Prod.Lex.right _ (Nat.lt_succ_self _)
  · rename_i hmem
    apply Prod.Lex.left
    have hentry := List.mem_of_find?_eq_some hfind
    have heq : entry.1 = packageJsonPath := by
      have h1 := List.find?_some hfind
      simp only [beq_iff_eq] at h1
      exact h1
    have hfolder : packageJsonPath.dropLast ∈ graphFolders graph := by
      rw [graphFolders, List.mem_map]
      exact ⟨entry, hentry, by rw [heq]⟩
    apply Finset.card_lt_card
    rw [List.toFinset_append, List.toFinset_cons, List.toFinset_nil,
      insert_emptyc_eq, Finset.sdiff_union_distrib]
    constructor
    · intro x hx
      exact Finset.mem_of_mem_inter_left hx
    · intro hsub
      have hin : packageJsonPath.dropLast ∈
          (graphFolders graph).toFinset \ foldersToCopy.toFinset := by
        simp only [Finset.mem_sdiff, List.mem_toFinset]
        exact ⟨hfolder, hmem⟩
      have hin2 := hsub hin
      simp at hin2
  · rename_i hmem
    by_cases hcase : packageJsonPath.dropLast ∈
        (graphFolders graph).toFinset \ foldersToCopy.toFinset
    · apply Prod.Lex.left
      apply Finset.card_lt_card
      rw [List.toFinset_append, List.toFinset_cons, List.toFinset_nil,
        insert_emptyc_eq, Finset.sdiff_union_distrib]
      constructor
      · intro x hx
        exact Finset.mem_of_mem_inter_left hx
      · intro hsub
        have hin2 := hsub hcase
        simp at hin2
    · have hsame : (graphFolders graph).toFinset \
          (foldersToCopy ++ [packageJsonPath.dropLast]).toFinset =
          (graphFolders graph).toFinset \ foldersToCopy.toFinset := by
        rw [List.toFinset_append, List.toFinset_cons, List.toFinset_nil,
          insert_emptyc_eq, Finset.sdiff_union_distrib]
        apply Finset.inter_eq_left.mpr
        intro x hx
        simp only [Finset.mem_sdiff, Finset.mem_singleton] at hx ⊢
        refine ⟨hx.1, ?_⟩
        intro hxeq
        exact hcase (by
          rw [← hxeq]
          simp only [Finset.mem_sdiff]
          exact hx)
      rw [hsame]
      exact Prod.Lex.right _ (Nat.lt_succ_self _)

/-- Embedding of _collectFoldersRecursive entry: ensure the owning folder of
the given manifest, and of every transitively resolved dependency manifest,
is present in foldersToCopy. -/
def collectFoldersRecursive (graph : DependencyGraph) (packageJsonPath : FsPath)
    (foldersToCopy : List FsPath) : List FsPath :=
  collectMany graph [packageJsonPath] foldersToCopy

/-- The two kinds of recorded links reported by the SymlinkAnalyzer. -/
inductive LinkKind where
  | fileLink
  | folderLink
  deriving DecidableEq

/-- A recorded link descriptor (ILinkInfo): kind, link path, target path. -/
structure LinkInfo where
  kind : LinkKind
  linkPath : FsPath
  targetPath : FsPath
  deriving DecidableEq

/-- The native creation primitive that _deploySymlink selects. -/
inductive LinkMechanism where
  | junction
  | hardLink
  | symbolicLinkFolder
  | symbolicLinkFile
  deriving DecidableEq

/-- One link-creation call, with the exact arguments passed to the
FileSystem primitive. -/
structure CreatedLink where
  mechanism : LinkMechanism
  linkTargetPath : FsPath
  newLinkPath : FsPath
  deriving DecidableEq

/-- The observable effects of one _deploySymlink call: the returned
boolean, the folders passed to ensureFolder, and the links created. -/
structure DeploySymlinkResult where
  returnValue : Bool
  createdFolders : List FsPath
  createdLinks : List CreatedLink
  deriving DecidableEq

/-- Embedding of the platform/kind branch of _deploySymlink: select the
native primitive from process.platform and the link kind. Every branch of
the source passes relativeTargetPath as the link target argument. -/
def createPlatformLink (platform : String) (kind : LinkKind)
    (relativeTargetPath linkPath : FsPath) : CreatedLink :=
  if platform == "win32" then
    if kind == LinkKind.folderLink then
      CreatedLink.mk LinkMechanism.junction relativeTargetPath linkPath
    else
      CreatedLink.mk LinkMechanism.hardLink relativeTargetPath linkPath
  else
    if kind == LinkKind.folderLink then
      CreatedLink.mk LinkMechanism.symbolicLinkFolder relativeTargetPath linkPath
    else
      CreatedLink.mk LinkMechanism.symbolicLinkFile relativeTargetPath linkPath

/-- Embedding of _deploySymlink: remap linkPath and targetPath into the
target tree; return false with no side effects when the remapped target
does not exist yet; otherwise ensure the parent folder of the new link and
create the platform- and kind-appropriate link, returning true. The
filesystem existence test and getRealPath are passed in as parameters. -/
def deploySymlink (platform : String)
    (sourceRootFolder targetSubdeploymentFolder : FsPath)
    (getRealPath : FsPath → FsPath) (fsExists : FsPath → Bool)
    (originalLinkInfo : LinkInfo) : Except String DeploySymlinkResult :=
  match remapPathForDeployFolder sourceRootFolder targetSubdeploymentFolder
      originalLinkInfo.linkPath with
  | Except.error e => Except.error e
  | Except.ok linkPath =>
    match remapPathForDeployFolder sourceRootFolder targetSubdeploymentFolder
        originalLinkInfo.targetPath with
    | Except.error e => Except.error e
    | Except.ok targetPath =>
      if fsExists targetPath = false then
        Except.ok (DeploySymlinkResult.mk false [] [])
      else
        let newLinkFolder := linkPath.dropLast
        let relativeTargetPath := nodeRelative (getRealPath newLinkFolder) targetPath
        Except.ok (DeploySymlinkResult.mk true [newLinkFolder]
          [createPlatformLink platform originalLinkInfo.kind relativeTargetPath linkPath])

/-- Embedding of the copySync filter of _deployFolder, applied to one
walked entry: entries under the node_modules subfolder of the copied
package are not copied; an entry that is a symbolic link is forwarded to
the SymlinkAnalyzer and not copied; every other entry is copied. The
result pairs the filter verdict with the paths recorded by analyzePath. -/
def deployFolderFilter (sourceFolderPath : FsPath) (isSymbolicLink : FsPath → Bool)
    (src : FsPath) : Bool × List FsPath :=
  if isUnderOrEqual src (sourceFolderPath ++ ["node_modules"]) then
    (false, [])
  else if isSymbolicLink src then
    (false, [src])
  else
    (true, [])

/-- One projectSettings entry of a deploy scenario config file. -/
structure DeployScenarioProjectJson where
  projectName : String
  subdeploymentFolderName : Option String := none
  additionalProjectsToInclude : List String := []
  deriving DecidableEq

/-- The subdeployments section of a deploy scenario config file. -/
structure DeploySubdeploymentsJson where
  enabled : Option Bool := none
  subdeploymentProjects : Option (List String) := none
  deriving DecidableEq

/-- A deploy scenario config file, restricted to the fields the deploy run
branches on. -/
structure DeployScenarioJson where
  includeDevDependencies : Bool := false
  projectSettings : List DeployScenarioProjectJson := []
  subdeployments : Option DeploySubdeploymentsJson := none
  deriving DecidableEq

/-- JavaScript Map.set on an association list: replace the value of an
existing key, otherwise append. -/
def mapSet (entries : List (String × DeployScenarioProjectJson)) (key : String)
    (value : DeployScenarioProjectJson) : List (String × DeployScenarioProjectJson) :=
  if entries.any (fun e => e.1 == key) then
    entries.map (fun e => if e.1 == key then (key, value) else e)
  else
    entries ++ [(key, value)]

/-- JavaScript Map.get on the association list built by mapSet. -/
def mapGet (entries : List (String × DeployScenarioProjectJson)) (key : String) :
    Option DeployScenarioProjectJson :=
  match entries.find? (fun e => e.1 == key) with
  | some e => some e.2
  | none => none

/-- Embedding of the inner additionalProjectsToInclude loop of
_loadConfigFile: for each additional project name, the guard tests
getProjectByName on projectSetting.projectName (not on the additional
name, which appears only in the error message). -/
def checkAdditionalProjects (knownProjects : List String)
    (projectSetting : DeployScenarioProjectJson) :
    List String → Except String Unit
  | [] => Except.ok ()
  | additionalProjectToInclude :: rest =>
    if knownProjects.contains projectSetting.projectName = false then
      Except.error ("The \"additionalProjectsToInclude\" setting refers to the" ++
        " project name \"" ++ additionalProjectToInclude ++
        "\" which was not found in rush.json")
    else
      checkAdditionalProjects knownProjects projectSetting rest

/-- Embedding of the projectSettings validation loop of _loadConfigFile:
for each entry, reject a projectName absent from rush.json; then run the
inner additionalProjectsToInclude loop, and store the entry in the by-name
map. Returns the map on success. -/
def loadConfigFileValidate (knownProjects : List String) :
    List DeployScenarioProjectJson → List (String × DeployScenarioProjectJson) →
    Except String (List (String × DeployScenarioProjectJson))
  | [], entries => Except.ok entries
  | projectSetting :: rest, entries =>
    if knownProjects.contains projectSetting.projectName = false then
      Except.error ("The \"projectSettings\" section refers to the project name \"" ++
        projectSetting.projectName ++ "\" which was not found in rush.json")
    else
      match checkAdditionalProjects knownProjects projectSetting
          projectSetting.additionalProjectsToInclude with
      | Except.error e => Except.error e
      | Except.ok _ =>
        loadConfigFileValidate knownProjects rest
          (mapSet entries projectSetting.projectName projectSetting)

/-- An observable deployment phase of deployScenario, in order of
execution. -/
inductive DeployAction where
  | ensureTargetFolder
  | emptyTargetFolder
  | deploySubdeployment (includedProjectNames : List String)
      (subdeploymentFolderName : Option String)
  deriving DecidableEq

/-- Embedding of the else branch of the subdeployments dispatch in
deployScenario: with subdeployments disabled, an empty projectSettings
list is fatal, otherwise one unnamed subdeployment covers every
projectSettings project name. -/
def defaultDeploymentActions (projectSettings : List DeployScenarioProjectJson) :
    Except String (List DeployAction) :=
  if projectSettings.isEmpty then
    Except.error ("No projects were specified to be deployed. If subdeployments.enabled" ++
      " is false, then the \"projectSettings\" section must specify at least one project.")
  else
    Except.ok [DeployAction.deploySubdeployment
      (projectSettings.map (fun x => x.projectName)) none]

/-- Embedding of the subdeploymentProjects loop of deployScenario: each
name must exist in rush.json; its folder name is the
subdeploymentFolderName override when present, else the unscoped package
name; a folder name already used is fatal; otherwise one subdeployment is
produced for the single project. -/
def subdeploymentActions (knownProjects : List String)
    (getUnscopedName : String → String)
    (settingsByName : String → Option DeployScenarioProjectJson) :
    List String → List String → Except String (List DeployAction)
  | [], _usedSubdeploymentFolderNames => Except.ok []
  | subdeploymentProjectName :: rest, usedSubdeploymentFolderNames =>
    if knownProjects.contains subdeploymentProjectName = false then
      Except.error ("The subdeploymentProjects specified the name \"" ++
        subdeploymentProjectName ++ "\" which was not found in rush.json")
    else
      let subdeploymentFolderName :=
        match settingsByName subdeploymentProjectName with
        | some projectSettings =>
          match projectSettings.subdeploymentFolderName with
          | some folderName => folderName
          | none => getUnscopedName subdeploymentProjectName
        | none => getUnscopedName subdeploymentProjectName
      if usedSubdeploymentFolderNames.contains subdeploymentFolderName then
        Except.error ("The subdeployment folder name \"" ++ subdeploymentFolderName ++
          "\" is not unique.  Use the \"subdeploymentFolderName\" setting to specify" ++
          " a different name.")
      else
        match subdeploymentActions knownProjects getUnscopedName settingsByName rest
            (usedSubdeploymentFolderNames ++ [subdeploymentFolderName]) with
        | Except.error e => Except.error e
        | Except.ok actions =>
          Except.ok (DeployAction.deploySubdeployment [subdeploymentProjectName]
            (some subdeploymentFolderName) :: actions)

/-- The subdeployments dispatch of deployScenario, after target
preparation: the subdeploymentProjects loop when subdeployments are
enabled (a missing list iterates nothing), else the single default
deployment. -/
def mainPhaseActions (scenario : DeployScenarioJson) (knownProjects : List String)
    (getUnscopedName : String → String)
    (entries : List (String × DeployScenarioProjectJson)) :
    Except String (List DeployAction) :=
  let subdeploymentsEnabled :=
    match scenario.subdeployments with
    | some sub => sub.enabled.getD false
    | none => false
  if subdeploymentsEnabled then
    let subdeploymentProjects :=
      match scenario.subdeployments with
      | some sub => sub.subdeploymentProjects.getD []
      | none => []
    subdeploymentActions knownProjects getUnscopedName (mapGet entries)
      subdeploymentProjects []
  else
    defaultDeploymentActions scenario.projectSettings

/-- Embedding of deployScenario: load and validate the scenario config,
ensure the target root folder, guard a non-empty target (fatal without
overwriteExisting, recursive delete with it), then run the subdeployments
dispatch. On success the returned action list records the phases in
execution order; an error is the thrown fatal message. -/
def deployScenarioModel (scenario : DeployScenarioJson) (knownProjects : List String)
    (getUnscopedName : String → String) (overwriteExisting : Bool)
    (targetFolderNonEmpty : Bool) : Except String (List DeployAction) :=
  match loadConfigFileValidate knownProjects scenario.projectSettings [] with
  | Except.error e => Except.error e
  | Except.ok entries =>
    match
      (if targetFolderNonEmpty then
        if overwriteExisting then
          Except.ok [DeployAction.emptyTargetFolder]
        else
          Except.error ("The deploy target folder is not empty. You can specify" ++
            " \"--overwrite\" to recursively delete all folder contents.")
      else (Except.ok [] : Except String (List DeployAction))) with
    | Except.error e => Except.error e
    | Except.ok prepActions =>
      match mainPhaseActions scenario knownProjects getUnscopedName entries with
      | Except.error e => Except.error e
      | Except.ok subActions =>
        Except.ok (DeployAction.ensureTargetFolder :: prepActions ++ subActions)

/-- Embedding of the includedProjectNamesSet computation of
_deploySubdeployment: each included project name, together with the
additionalProjectsToInclude of its projectSettings entry when present. -/
def includedProjectClosure (settingsByName : String → Option DeployScenarioProjectJson)
    (includedProjectNames : List String) : List String :=
  includedProjectNames.foldl (fun acc projectName =>
    let acc := setAdd acc projectName
    match settingsByName projectName with
    | some projectSettings => addAll acc projectSettings.additionalProjectsToInclude
    | none => acc) []

/-- Embedding of the getProjectByName guard of the analysis loop of
_deploySubdeployment: an included project name absent from rush.json is
fatal there (this runs after target preparation). -/
def checkProjectsDefined (knownProjects : List String) :
    List String → Except String Unit
  | [] => Except.ok ()
  | projectName :: rest =>
    if knownProjects.contains projectName = false then
      Except.error ("The project " ++ projectName ++ " is not defined in rush.json")
    else
      checkProjectsDefined knownProjects rest

/-! ## Helper lemmas -/

theorem mem_setAdd (s : List String) (x y : String) :
    y ∈ setAdd s x ↔ y ∈ s ∨ y = x := by
  unfold setAdd
  by_cases h : s.contains x = true
  · rw [if_pos h]
    have hx : x ∈ s := List.elem_iff.mp h
    constructor
    · exact Or.inl
    · rintro (hy | rfl)
      exacts [hy, hx]
  · rw [if_neg h]
    simp [List.mem_append]

theorem mem_foldl_setAdd (names : List String) : ∀ (s : List String) (y : String),
    y ∈ names.foldl setAdd s ↔ y ∈ s ∨ y ∈ names := by
  induction names with
  | nil => intro s y; simp
  | cons a as ih =>
    intro s y
    rw [List.foldl_cons, ih, mem_setAdd, List.mem_cons]
    tauto

theorem mem_addAll (s names : List String) (y : String) :
    y ∈ addAll s names ↔ y ∈ s ∨ y ∈ names :=
  mem_foldl_setAdd names s y

theorem commonPrefixLength_of_isPrefixOf :
    ∀ (root p : FsPath), root.isPrefixOf p = true →
      commonPrefixLength root p = root.length
  | [], _, _ => by simp [commonPrefixLength]
  | _ :: _, [], h => by simp [List.isPrefixOf] at h
  | a :: as, b :: bs, h => by
    rw [List.isPrefixOf, Bool.and_eq_true] at h
    rw [commonPrefixLength, if_pos h.1, List.length_cons,
      commonPrefixLength_of_isPrefixOf as bs h.2]
    omega

theorem nodeRelative_of_prefix (root p : FsPath) (h : root.isPrefixOf p = true) :
    nodeRelative root p = p.drop root.length := by
  unfold nodeRelative
  rw [commonPrefixLength_of_isPrefixOf root p h]
  simp

/-! ## Claim theorems -/

/-- C7: for every absolute path under the source root, the remapped deploy
path is the target subdeployment root joined with the relative position of
the path under the source root (the node path.relative of the two); for
every absolute path not under the source root, the remapping fails with
the fatal error naming both paths. -/
theorem remapPathForDeployFolder_spec (sourceRootFolder targetSubdeploymentFolder
    absolutePathInSourceFolder : FsPath) :
    (isUnderOrEqual absolutePathInSourceFolder sourceRootFolder = true →
      remapPathForDeployFolder sourceRootFolder targetSubdeploymentFolder
        absolutePathInSourceFolder =
      Except.ok (targetSubdeploymentFolder ++
        absolutePathInSourceFolder.drop sourceRootFolder.length))
    ∧ (isUnderOrEqual absolutePathInSourceFolder sourceRootFolder = false →
      remapPathForDeployFolder sourceRootFolder targetSubdeploymentFolder
        absolutePathInSourceFolder =
      Except.error ("Source path is not under " ++ renderPath sourceRootFolder ++
        "\n" ++ renderPath absolutePathInSourceFolder)) := by
  constructor
  · intro h
    have hpre : sourceRootFolder.isPrefixOf absolutePathInSourceFolder = true := h
    rw [remapPathForDeployFolder, if_pos h, nodeRelative_of_prefix _ _ hpre]
  · intro h
    rw [remapPathForDeployFolder, if_neg (by simp [h])]

/-- Witness for C7 at concrete paths, one under the source root and one
outside it. -/
theorem remapPathForDeployFolder_spec_witness :
    remapPathForDeployFolder ["repo"] ["repo", "common", "deploy"]
      ["repo", "libraries", "lib-a"] =
      Except.ok ["repo", "common", "deploy", "libraries", "lib-a"]
    ∧ remapPathForDeployFolder ["repo"] ["repo", "common", "deploy"]
      ["elsewhere", "lib-b"] =
      Except.error ("Source path is not under repo\nelsewhere/lib-b") := by
  constructor
  · exact ((remapPathForDeployFolder_spec ["repo"] ["repo", "common", "deploy"]
      ["repo", "libraries", "lib-a"]).1 (by decide)).trans (by rfl)
  · exact ((remapPathForDeployFolder_spec ["repo"] ["repo", "common", "deploy"]
      ["elsewhere", "lib-b"]).2 (by decide)).trans (by rfl)

/-- C5: the traversed required name set is the union of dependencies,
devDependencies when included, peerDependencies and optionalDependencies;
the lenient set is the union of peerDependencies and
optionalDependencies; a name under both dependencies and peerDependencies
is in the lenient set. -/
theorem dependency_name_sets (includeDevDependencies : Bool)
    (packageJson : PackageJson) (n : String) :
    (n ∈ allDependencyNames includeDevDependencies packageJson ↔
      (n ∈ packageJson.dependencies ∨
       (includeDevDependencies = true ∧ n ∈ packageJson.devDependencies) ∨
       n ∈ packageJson.peerDependencies ∨ n ∈ packageJson.optionalDependencies))
    ∧ (n ∈ optionalDependencyNames packageJson ↔
      (n ∈ packageJson.peerDependencies ∨ n ∈ packageJson.optionalDependencies))
    ∧ (n ∈ packageJson.dependencies → n ∈ packageJson.peerDependencies →
      n ∈ optionalDependencyNames packageJson) := by
  refine ⟨?_, ?_, ?_⟩
  · unfold allDependencyNames
    cases includeDevDependencies with
    | false => simp only [Bool.false_eq_true, if_false, mem_addAll]; tauto
    | true => simp only [if_true, mem_addAll]; tauto
  · unfold optionalDependencyNames
    simp only [mem_addAll]
    tauto
  · intro _ hpeer
    unfold optionalDependencyNames
    simp only [mem_addAll]
    tauto

/-- Witness for C5 at a concrete manifest in which the name dual appears
under both dependencies and peerDependencies. -/
theorem dependency_name_sets_witness :
    (PackageJson.mk ["dual", "plain"] ["devonly"] ["dual", "peeronly"] []).dependencies
        = ["dual", "plain"]
    ∧ "dual" ∈ optionalDependencyNames
        (PackageJson.mk ["dual", "plain"] ["devonly"] ["dual", "peeronly"] []) := by
  refine ⟨rfl, ?_⟩
  exact (dependency_name_sets false
    (PackageJson.mk ["dual", "plain"] ["devonly"] ["dual", "peeronly"] []) "dual").2.2
    (by decide) (by decide)

/-- C2: when module resolution of a required dependency name fails, the
resolver skips the name when it is in the lenient (optional) set, and
otherwise aborts with the fatal resolution error naming the dependency and
the requiring manifest; no other outcome is possible on failure. -/
theorem handleResolvedDependency_failure (optionalNames : List String)
    (dependencyPackageName : String) (packageJsonPath : FsPath)
    (lookup : FsPath → Option FsPath) :
    (dependencyPackageName ∈ optionalNames →
      handleResolvedDependency optionalNames dependencyPackageName packageJsonPath
        none lookup = DependencyOutcome.skipped)
    ∧ (dependencyPackageName ∉ optionalNames →
      handleResolvedDependency optionalNames dependencyPackageName packageJsonPath
        none lookup =
      DependencyOutcome.fatal ("Error resolving " ++ dependencyPackageName ++
        " from " ++ renderPath packageJsonPath)) := by
  constructor
  · intro h
    rw [handleResolvedDependency, if_pos (List.elem_iff.mpr h)]
  · intro h
    rw [handleResolvedDependency, if_neg (by simp [List.elem_iff, h])]

/-- Witness for C2: a lenient name is skipped, a regular name is fatal,
at concrete inputs. -/
theorem handleResolvedDependency_failure_witness :
    handleResolvedDependency ["peer-dep"] "peer-dep" ["repo", "app", "package.json"]
      none (fun _ => none) = DependencyOutcome.skipped
    ∧ handleResolvedDependency ["peer-dep"] "hard-dep" ["repo", "app", "package.json"]
      none (fun _ => none) =
      DependencyOutcome.fatal
        "Error resolving hard-dep from repo/app/package.json" := by
  constructor
  · exact (handleResolvedDependency_failure ["peer-dep"] "peer-dep"
      ["repo", "app", "package.json"] (fun _ => none)).1 (by decide)
  · exact ((handleResolvedDependency_failure ["peer-dep"] "hard-dep"
      ["repo", "app", "package.json"] (fun _ => none)).2 (by decide)).trans (by decide)

/-- C8: during a folder copy, an entry under the node_modules subfolder of
the copied package is excluded from the copy (and records nothing), and an
entry outside it that is a symbolic link is not copied as content but is
forwarded to the link recorder. -/
theorem deployFolderFilter_spec (sourceFolderPath : FsPath)
    (isSymbolicLink : FsPath → Bool) (src : FsPath) :
    (isUnderOrEqual src (sourceFolderPath ++ ["node_modules"]) = true →
      deployFolderFilter sourceFolderPath isSymbolicLink src = (false, []))
    ∧ (isUnderOrEqual src (sourceFolderPath ++ ["node_modules"]) = false →
      isSymbolicLink src = true →
      deployFolderFilter sourceFolderPath isSymbolicLink src = (false, [src])) := by
  constructor
  · intro h
    rw [deployFolderFilter, if_pos h]
  · intro h hlink
    rw [deployFolderFilter, if_neg (by simp [h]), if_pos hlink]

/-- Witness for C8 at concrete entries: one inside node_modules, one
symbolic link outside it. -/
theorem deployFolderFilter_spec_witness :
    deployFolderFilter ["repo", "app"]
      (fun p => p == ["repo", "app", "lib", "linked.js"])
      ["repo", "app", "node_modules", "dep"] = (false, [])
    ∧ deployFolderFilter ["repo", "app"]
      (fun p => p == ["repo", "app", "lib", "linked.js"])
      ["repo", "app", "lib", "linked.js"] = (false, [["repo", "app", "lib", "linked.js"]]) := by
  constructor
  · exact (deployFolderFilter_spec ["repo", "app"]
      (fun p => p == ["repo", "app", "lib", "linked.js"])
      ["repo", "app", "node_modules", "dep"]).1 (by decide)
  · exact (deployFolderFilter_spec ["repo", "app"]
      (fun p => p == ["repo", "app", "lib", "linked.js"])
      ["repo", "app", "lib", "linked.js"]).2 (by decide) (by decide)

theorem collectMany_nodup (graph : DependencyGraph)
    (pending foldersToCopy : List FsPath) :
    foldersToCopy.Nodup → (collectMany graph pending foldersToCopy).Nodup := by
  induction pending, foldersToCopy using collectMany.induct graph with
  | case1 foldersToCopy =>
    intro h
    rw [collectMany]
    exact h
  | case2 packageJsonPath rest foldersToCopy hmem ih =>
    intro h
    rw [collectMany, if_pos hmem]
    exact ih h
  | case3 packageJsonPath rest foldersToCopy hmem entry hfind ih =>
    intro h
    rw [collectMany, if_neg hmem, hfind]
    exact ih (by simp [List.nodup_append, h, hmem])
  | case4 packageJsonPath rest foldersToCopy hmem hfind ih =>
    intro h
    rw [collectMany, if_neg hmem, hfind]
    exact ih (by simp [List.nodup_append, h, hmem])

/-- C4: the resolver is total on every dependency graph, cyclic ones
included (collectMany is accepted by Lean with a well-founded measure); a
manifest whose owning folder is already present in foldersToCopy leaves
the state unchanged without descending; and starting from a
duplicate-free foldersToCopy, each folder appears at most once in the
result. -/
theorem collectFoldersRecursive_termination (graph : DependencyGraph)
    (packageJsonPath : FsPath) (pending foldersToCopy : List FsPath) :
    (packageJsonPath.dropLast ∈ foldersToCopy →
      collectFoldersRecursive graph packageJsonPath foldersToCopy = foldersToCopy)
    ∧ (foldersToCopy.Nodup → (collectMany graph pending foldersToCopy).Nodup) := by
  constructor
  · intro h
    rw [collectFoldersRecursive, collectMany, if_pos h, collectMany]
  · exact collectMany_nodup graph pending foldersToCopy

/-- Witness for C4 on a concrete two-manifest cyclic graph. -/
theorem collectFoldersRecursive_termination_witness :
    collectFoldersRecursive
      [(["a", "package.json"], [["b", "package.json"]]),
       (["b", "package.json"], [["a", "package.json"]])]
      ["a", "package.json"] [["a"]] = [["a"]]
    ∧ (collectMany
      [(["a", "package.json"], [["b", "package.json"]]),
       (["b", "package.json"], [["a", "package.json"]])]
      [["a", "package.json"]] []).Nodup := by
  constructor
  · exact (collectFoldersRecursive_termination
      [(["a", "package.json"], [["b", "package.json"]]),
       (["b", "package.json"], [["a", "package.json"]])]
      ["a", "package.json"] [] [["a"]]).1 (by decide)
  · exact (collectFoldersRecursive_termination
      [(["a", "package.json"], [["b", "package.json"]]),
       (["b", "package.json"], [["a", "package.json"]])]
      ["a", "package.json"] [["a", "package.json"]] []).2 (by decide)

/-- C6: once both descriptor paths are remapped into the target tree,
deployLink returns false with no side effects (no folder created, no link
created) when the remapped target does not exist on disk; when it exists,
it creates the parent folder of the new link and the platform- and
kind-appropriate link, and returns true. -/
theorem deploySymlink_contract (platform : String)
    (sourceRootFolder targetSubdeploymentFolder : FsPath)
    (getRealPath : FsPath → FsPath) (fsExists : FsPath → Bool)
    (originalLinkInfo : LinkInfo) (linkPath targetPath : FsPath)
    (hlink : remapPathForDeployFolder sourceRootFolder targetSubdeploymentFolder
      originalLinkInfo.linkPath = Except.ok linkPath)
    (htarget : remapPathForDeployFolder sourceRootFolder targetSubdeploymentFolder
      originalLinkInfo.targetPath = Except.ok targetPath) :
    (fsExists targetPath = false →
      deploySymlink platform sourceRootFolder targetSubdeploymentFolder getRealPath
        fsExists originalLinkInfo = Except.ok (DeploySymlinkResult.mk false [] []))
    ∧ (fsExists targetPath = true →
      deploySymlink platform sourceRootFolder targetSubdeploymentFolder getRealPath
        fsExists originalLinkInfo =
      Except.ok (DeploySymlinkResult.mk true [linkPath.dropLast]
        [createPlatformLink platform originalLinkInfo.kind
          (nodeRelative (getRealPath linkPath.dropLast) targetPath) linkPath])) := by
  constructor
  · intro h
    simp only [deploySymlink, hlink, htarget, h, if_pos]
  · intro h
    simp only [deploySymlink, hlink, htarget, h, Bool.true_eq_false, if_false]

/-- Witness for C6 at a concrete descriptor, once against an absent
remapped target and once against a present one. -/
theorem deploySymlink_contract_witness :
    deploySymlink "linux" ["repo"] ["deploy"] id (fun _ => false)
      (LinkInfo.mk LinkKind.folderLink ["repo", "x", "ln"] ["repo", "y"]) =
      Except.ok (DeploySymlinkResult.mk false [] [])
    ∧ deploySymlink "linux" ["repo"] ["deploy"] id (fun _ => true)
      (LinkInfo.mk LinkKind.folderLink ["repo", "x", "ln"] ["repo", "y"]) =
      Except.ok (DeploySymlinkResult.mk true [["deploy", "x"]]
        [CreatedLink.mk LinkMechanism.symbolicLinkFolder ["..", "y"]
          ["deploy", "x", "ln"]]) := by
  constructor
  · exact (deploySymlink_contract "linux" ["repo"] ["deploy"] id (fun _ => false)
      (LinkInfo.mk LinkKind.folderLink ["repo", "x", "ln"] ["repo", "y"])
      ["deploy", "x", "ln"] ["deploy", "y"] (by rfl) (by rfl)).1 (by rfl)
  · exact ((deploySymlink_contract "linux" ["repo"] ["deploy"] id (fun _ => true)
      (LinkInfo.mk LinkKind.folderLink ["repo", "x", "ln"] ["repo", "y"])
      ["deploy", "x", "ln"] ["deploy", "y"] (by rfl) (by rfl)).2 (by rfl)).trans (by rfl)

/-- C1 evaluated on the code: on win32, a recorded fileLink whose remapped
target exists is materialized by a hard link whose link target argument is
the relative path from the new link folder, not the absolute remapped
target path, although the adjacent source comment states the relative path
cannot be used for hard links. -/
theorem deploySymlink_hardLink_gets_relative_path :
    deploySymlink "win32" ["repo"] ["deploy"] id (fun _ => true)
      (LinkInfo.mk LinkKind.fileLink ["repo", "a", "link.js"] ["repo", "b", "file.js"]) =
      Except.ok (DeploySymlinkResult.mk true [["deploy", "a"]]
        [CreatedLink.mk LinkMechanism.hardLink ["..", "b", "file.js"]
          ["deploy", "a", "link.js"]])
    ∧ (["..", "b", "file.js"] : FsPath) ≠ ["deploy", "b", "file.js"] :=
  ⟨rfl, by decide⟩

/-- C3 evaluated on the code: a projectSettings entry whose
additionalProjectsToInclude names a project unknown to rush.json passes
the _loadConfigFile validation (the guard re-tests the entry's own
projectName), so no load-time fatal error occurs; the unknown name
instead aborts inside _deploySubdeployment, which runs only after target
preparation. -/
theorem loadConfigFile_misses_unknown_additional_project :
    loadConfigFileValidate ["project-a"]
      [DeployScenarioProjectJson.mk "project-a" none ["ghost-project"]] [] =
      Except.ok [("project-a",
        DeployScenarioProjectJson.mk "project-a" none ["ghost-project"])]
    ∧ checkProjectsDefined ["project-a"]
      (includedProjectClosure
        (mapGet [("project-a",
          DeployScenarioProjectJson.mk "project-a" none ["ghost-project"])])
        ["project-a"]) =
      Except.error "The project ghost-project is not defined in rush.json" :=
  ⟨rfl, rfl⟩

/-- C9: after a successful scenario load, a non-empty target folder
without overwriteExisting is fatal with the non-empty error before any
deployment action is produced; with overwriteExisting, the target contents
are deleted first and the run proceeds into the subdeployments phase. -/
theorem deployScenario_target_guard (scenario : DeployScenarioJson)
    (knownProjects : List String) (getUnscopedName : String → String)
    (entries : List (String × DeployScenarioProjectJson))
    (hload : loadConfigFileValidate knownProjects scenario.projectSettings [] =
      Except.ok entries) :
    (deployScenarioModel scenario knownProjects getUnscopedName false true =
      Except.error ("The deploy target folder is not empty. You can specify" ++
        " \"--overwrite\" to recursively delete all folder contents."))
    ∧ (∀ subActions,
      mainPhaseActions scenario knownProjects getUnscopedName entries =
        Except.ok subActions →
      deployScenarioModel scenario knownProjects getUnscopedName true true =
        Except.ok (DeployAction.ensureTargetFolder :: DeployAction.emptyTargetFolder ::
          subActions)) := by
  constructor
  · simp [deployScenarioModel, hload]
  · intro subActions hsub
    simp [deployScenarioModel, hload, hsub]

/-- Witness for C9 at a concrete one-project scenario. -/
theorem deployScenario_target_guard_witness :
    deployScenarioModel
      (DeployScenarioJson.mk false [DeployScenarioProjectJson.mk "project-a" none []] none)
      ["project-a"] id false true =
      Except.error ("The deploy target folder is not empty. You can specify" ++
        " \"--overwrite\" to recursively delete all folder contents.")
    ∧ deployScenarioModel
      (DeployScenarioJson.mk false [DeployScenarioProjectJson.mk "project-a" none []] none)
      ["project-a"] id true true =
      Except.ok [DeployAction.ensureTargetFolder, DeployAction.emptyTargetFolder,
        DeployAction.deploySubdeployment ["project-a"] none] := by
  constructor
  · exact (deployScenario_target_guard
      (DeployScenarioJson.mk false [DeployScenarioProjectJson.mk "project-a" none []] none)
      ["project-a"] id
      [("project-a", DeployScenarioProjectJson.mk "project-a" none [])] (by rfl)).1
  · exact (deployScenario_target_guard
      (DeployScenarioJson.mk false [DeployScenarioProjectJson.mk "project-a" none []] none)
      ["project-a"] id
      [("project-a", DeployScenarioProjectJson.mk "project-a" none [])] (by rfl)).2
      [DeployAction.deploySubdeployment ["project-a"] none] (by rfl)

/-- C10: with subdeployments enabled and an empty or absent
subdeploymentProjects list, deployScenario performs target preparation
(including emptying a non-empty target under overwriteExisting) and then
completes successfully with no subdeployment deployed: the fatal
empty-project-list check lives only in the disabled branch. -/
theorem deployScenario_enabled_empty_subdeployments (scenario : DeployScenarioJson)
    (knownProjects : List String) (getUnscopedName : String → String)
    (entries : List (String × DeployScenarioProjectJson))
    (sub : DeploySubdeploymentsJson) (overwriteExisting targetFolderNonEmpty : Bool)
    (hload : loadConfigFileValidate knownProjects scenario.projectSettings [] =
      Except.ok entries)
    (hsub : scenario.subdeployments = some sub)
    (hen : sub.enabled.getD false = true)
    (hproj : sub.subdeploymentProjects.getD [] = [])
    (hprep : targetFolderNonEmpty = false ∨ overwriteExisting = true) :
    deployScenarioModel scenario knownProjects getUnscopedName overwriteExisting
      targetFolderNonEmpty =
    Except.ok (DeployAction.ensureTargetFolder ::
      (if targetFolderNonEmpty then [DeployAction.emptyTargetFolder] else [])) := by
  have hmain : mainPhaseActions scenario knownProjects getUnscopedName entries =
      Except.ok [] := by
    simp [mainPhaseActions, hsub, hen, hproj, subdeploymentActions]
  rcases hprep with h | h
  · subst h
    simp [deployScenarioModel, hload, hmain]
  · subst h
    cases targetFolderNonEmpty <;> simp [deployScenarioModel, hload, hmain]

/-- Witness for C10: enabled subdeployments with an absent
subdeploymentProjects list, against a non-empty target with overwrite. -/
theorem deployScenario_enabled_empty_subdeployments_witness :
    deployScenarioModel
      (DeployScenarioJson.mk false [] (some (DeploySubdeploymentsJson.mk (some true) none)))
      [] id true true =
      Except.ok [DeployAction.ensureTargetFolder, DeployAction.emptyTargetFolder] := by
  exact (deployScenario_enabled_empty_subdeployments
    (DeployScenarioJson.mk false [] (some (DeploySubdeploymentsJson.mk (some true) none)))
    [] id [] (DeploySubdeploymentsJson.mk (some true) none) true true
    (by rfl) (by rfl) (by rfl) (by rfl) (Or.inr rfl)).trans (by rfl)

end DeployManager
